import Mathlib

/-!
Shallow embedding of the Token Relevance Evaluation engine
(`src/evaluation/token_relevance_evaluation.py`) of the
explainable-soft-prompts repository.

Modelling conventions:
* Python ints are `Int`, Python floats are `ℚ` (exact rational arithmetic;
  the spec allows floating-point tolerance for scalars, and all claims here
  are about structure and exact algebra, not rounding).
* Fallible Python operations (list indexing, `float(...)` conversion,
  division) return `Except PyErr`; a raised exception is `Except.error`.
* External collaborators (the Ablation Loss Oracle functions
  `prompt_token_drop_out`, `validate_soft_prompt_on_multiple_models`,
  `validate_prompt`, the embedding-space provider and the k-nearest-neighbor
  search) are parameters of the run configuration: the engine under
  verification only forwards their results, so their outputs are inputs of
  the model.
-/

/-- Python exceptions that the evaluation code can raise. -/
inductive PyErr where
  | fileNotFound
  | indexError
  | valueError
  | zeroDivisionError
deriving DecidableEq

deriving instance DecidableEq for Except

/-- A dynamically typed Python value as it appears in a csv cell or in an
attribute of the evaluator object: an int, a float (modelled as `ℚ`), or a
string.  `csv.writer` stringifies every cell and `csv.reader` returns
strings; a stored `Val.i`/`Val.q` cell stands for the csv string produced
from that value, and the reader-side coercions below model Python's exact
`str`/`float` round-trip on such cells. -/
inductive Val where
  | i : Int → Val
  | q : ℚ → Val
  | s : String → Val
deriving DecidableEq

/-- Python list indexing `l[i]` for a non-negative index: `IndexError` when
out of range. -/
def pyGet (l : List α) (i : ℕ) : Except PyErr α :=
  match l.get? i with
  | some a => Except.ok a
  | none => Except.error PyErr.indexError

/-- Python division `a / b` on floats: `ZeroDivisionError` when `b = 0`. -/
def pyDiv (a b : ℚ) : Except PyErr ℚ :=
  if b = 0 then Except.error PyErr.zeroDivisionError else Except.ok (a / b)

/-- Value of a Python bool used in arithmetic (`True == 1`, `False == 0`). -/
def indicator (b : Prop) [Decidable b] : ℚ :=
  if b then 1 else 0

/-- Python `sum(f(i) for i in idxs)`, evaluating terms left to right and
propagating the first raised exception. -/
def pySum (f : ℕ → Except PyErr ℚ) : List ℕ → Except PyErr ℚ
  | [] => Except.ok 0
  | i :: rest => do
      let x ← f i
      let s ← pySum f rest
      pure (x + s)

/-- Python list comprehension `[labels[n] for n in tn]`. -/
def pyMapGet (labels : List Int) : List ℕ → Except PyErr (List Int)
  | [] => Except.ok []
  | n :: rest => do
      let v ← pyGet labels n
      let vs ← pyMapGet labels rest
      pure (v :: vs)

/-- Keys of a `collections.Counter` built from `l`, in insertion order
(first occurrence order), as guaranteed for Python dicts. -/
def firstOcc (seen : List Int) : List Int → List Int
  | [] => []
  | a :: rest =>
      if a ∈ seen then firstOcc seen rest
      else a :: firstOcc (a :: seen) rest

/-- Head of `Counter.most_common()`: the first element of the stable sort of
the `(key, count)` pairs by descending count, i.e. the leftmost pair whose
count no later pair strictly exceeds. -/
def pickMax : List (Int × ℕ) → Option (Int × ℕ)
  | [] => none
  | p :: rest =>
      match pickMax rest with
      | none => some p
      | some q => if q.2 > p.2 then some q else some p

/-- Model of `Counter(l).most_common()[0]` (as an `Option`: `none` when the
list is empty, in which case Python raises `IndexError` at the `[0]`). -/
def mostCommon (l : List Int) : Option (Int × ℕ) :=
  pickMax ((firstOcc [] l).map (fun a => (a, l.count a)))

/-- Body of the per-token loop of `Token_Relevance_Evaluation.nearest_neighbor_vote`:
`neighbor_labels = [labels[neighbor] for neighbor in token_neighbors]`,
`most_common = Counter(neighbor_labels).most_common()[0]`, returning
`(most_common[0], most_common[1] / self.k)`. -/
def nnVoteOne (k : ℕ) (labels : List Int) (tn : List ℕ) : Except PyErr (Int × ℚ) := do
  let nl ← pyMapGet labels tn
  match mostCommon nl with
  | none => Except.error PyErr.indexError
  | some mc => do
      let cert ← pyDiv (mc.2 : ℚ) (k : ℚ)
      pure (mc.1, cert)

/-- The full `nearest_neighbor_vote` loop over the neighbor lists returned
by `get_k_nearest_neighbors_for_all_tokens` (one list per token). -/
def nnVotes (k : ℕ) (labels : List Int) : List (List ℕ) → Except PyErr (List (Int × ℚ))
  | [] => Except.ok []
  | tn :: rest => do
      let v ← nnVoteOne k labels tn
      let vs ← nnVotes k labels rest
      pure (v :: vs)

/-- One summand of the accuracy computation in `nn_evaluation`:
`votes[i][0] == model_per_token[i]` (a bool used as 0/1). -/
def accTerm (mpt : List Int) (votes : List (Int × ℚ)) (i : ℕ) : Except PyErr ℚ := do
  let v ← pyGet votes i
  let m ← pyGet mpt i
  pure (indicator (v.1 = m))

/-- The accuracy expression of `nn_evaluation`:
`sum(votes[i][0] == model_per_token[i] for i in range(len(votes))) / len(votes)`. -/
def accuracy (mpt : List Int) (votes : List (Int × ℚ)) : Except PyErr ℚ := do
  let num ← pySum (accTerm mpt votes) (List.range votes.length)
  pyDiv num (votes.length : ℚ)

/-- One summand of the weighted-accuracy numerator in `nn_evaluation`:
`(votes[i][0] == model_per_token[i]) * votes[i][1]`. -/
def numTerm (mpt : List Int) (votes : List (Int × ℚ)) (i : ℕ) : Except PyErr ℚ := do
  let v ← pyGet votes i
  let m ← pyGet mpt i
  pure (indicator (v.1 = m) * v.2)

/-- One summand of the weighted-accuracy denominator: `votes[i][1]`. -/
def certTerm (votes : List (Int × ℚ)) (i : ℕ) : Except PyErr ℚ := do
  let v ← pyGet votes i
  pure v.2

/-- The weighted-accuracy expression of `nn_evaluation`:
`sum((votes[i][0] == mpt[i]) * votes[i][1] for i in range(len(votes)))
  / sum(votes[i][1] for i in range(len(votes)))`.
The division is Python float division: it raises `ZeroDivisionError` when the
certainty sum is zero. -/
def waccuracy (mpt : List Int) (votes : List (Int × ℚ)) : Except PyErr ℚ := do
  let num ← pySum (numTerm mpt votes) (List.range votes.length)
  let den ← pySum (certTerm votes) (List.range votes.length)
  pyDiv num den

/-- One summand of the cross-metric agreement in `nn_evaluation`:
`euc_nn_votes[i][0] == cos_nn_votes[i][0]`. -/
def crossTerm (euc cos : List (Int × ℚ)) (i : ℕ) : Except PyErr ℚ := do
  let e ← pyGet euc i
  let c ← pyGet cos i
  pure (indicator (e.1 = c.1))

/-- The Euclidean-to-cosine agreement expression of `nn_evaluation`. -/
def crossAccuracy (euc cos : List (Int × ℚ)) : Except PyErr ℚ := do
  let num ← pySum (crossTerm euc cos) (List.range euc.length)
  pyDiv num (euc.length : ℚ)

/-- Keyword arguments of one `validate_prompt` call made by
`loss_evaluation` (the run-constant arguments — config, soft prompt name,
accelerator, prompt length, embedding size, batch size, test-set flag — are
omitted since they are identical for every call of a run). -/
structure ValidateCall where
  model_number : Int
  dropped_out_tokens : List ℕ
  inverse : Bool
  shorten : Bool
deriving DecidableEq

/-- Helper for `tokensToKeep`: the Python comprehension
`[j for j, x in enumerate(l) if x == m]` with enumeration starting at `s`. -/
def enumKeep (m : Int) (s : ℕ) : List Int → List ℕ
  | [] => []
  | x :: rest =>
      if x = m then s :: enumKeep m (s + 1) rest
      else enumKeep m (s + 1) rest

/-- The kept-token set computed in `loss_evaluation`:
`tokens_to_keep = [j for j, x in enumerate(self.model_per_token) if x == model_number]`. -/
def tokensToKeep (mpt : List Int) (m : Int) : List ℕ :=
  enumKeep m 0 mpt

/-- The per-model loop of `loss_evaluation`.  For each model number it
computes `tokens_to_keep` once, then calls `validate_prompt` with
`inverse=True, shorten=False` (appended to `masked_loss`) and again with the
same arguments except `shorten=True` (appended to `compressed_loss`).
Returns the two loss lists together with the trace of `validate_prompt`
calls actually performed, in order; a raised oracle error stops the loop. -/
def lossLoop (oracle : ValidateCall → Except PyErr ℚ) (mpt : List Int) :
    List Int → Except PyErr (List ℚ × List ℚ) × List ValidateCall
  | [] => (Except.ok ([], []), [])
  | m :: rest =>
      let keep := tokensToKeep mpt m
      let maskedCall : ValidateCall := ⟨m, keep, true, false⟩
      match oracle maskedCall with
      | Except.error e => (Except.error e, [maskedCall])
      | Except.ok lm =>
        let compressedCall : ValidateCall := ⟨m, keep, true, true⟩
        match oracle compressedCall with
        | Except.error e => (Except.error e, [maskedCall, compressedCall])
        | Except.ok lc =>
          match lossLoop oracle mpt rest with
          | (Except.error e, tr) => (Except.error e, maskedCall :: compressedCall :: tr)
          | (Except.ok (ms, cs), tr) =>
              (Except.ok (lm :: ms, lc :: cs), maskedCall :: compressedCall :: tr)

/-- The complete evaluation state assembled by a cache-miss run, i.e. the
attributes of `Token_Relevance_Evaluation` that `save_results` writes. -/
structure Report where
  prompt_length : ℕ
  model_names : List String
  model_per_token : List Int
  model_loss_per_token : List ℚ
  euc_nn_votes : List (Int × ℚ)
  cos_nn_votes : List (Int × ℚ)
  euc_accuracy : ℚ
  cos_accuracy : ℚ
  euc_waccuracy : ℚ
  cos_waccuracy : ℚ
  euc_to_cos_accuracy : ℚ
  masked_loss : List ℚ
  compressed_loss : List ℚ
  individual_model_loss : List ℚ
deriving DecidableEq

/-- `numpy.mean` of a list of floats: sum divided by length.  (For the empty
list numpy yields NaN; in `ℚ` this degenerates to `0 / 0 = 0`, a case no
run of the engine produces since the model pool is nonempty.) -/
def npMean (l : List ℚ) : ℚ :=
  l.sum / (l.length : ℚ)

/-- The rows written by `Token_Relevance_Evaluation.save_results`, in order.
Each `writer.writerow` call contributes one row; cells keep their Python
value (see `Val`). -/
def saveRows (r : Report) : List (List Val) :=
  [ Val.s ("token id") :: (List.range r.prompt_length).map (fun i => Val.i i)
  , Val.s ("Loss assignment") :: r.model_per_token.map Val.i
  , Val.s ("Euclidean assignment") :: r.euc_nn_votes.map (fun v => Val.i v.1)
  , Val.s ("Cosine assignment") :: r.cos_nn_votes.map (fun v => Val.i v.1)
  , Val.s ("Loss") :: r.model_loss_per_token.map Val.q
  , Val.s ("Euclidean certanty") :: r.euc_nn_votes.map (fun v => Val.q v.2)
  , Val.s ("Cosine certanty") :: r.cos_nn_votes.map (fun v => Val.q v.2)
  , [Val.s ("")]
  , [Val.s ("Euclidean accuracy"), Val.q r.euc_accuracy]
  , [Val.s ("Cosine accuracy"), Val.q r.cos_accuracy]
  , [Val.s ("Euclidean weighted accuracy"), Val.q r.euc_waccuracy]
  , [Val.s ("Cosine weighted accuracy"), Val.q r.cos_waccuracy]
  , [Val.s ("Euclidean to cosine accuracy"), Val.q r.euc_to_cos_accuracy]
  , [Val.s ("")]
  , Val.s ("Prompt compression") :: (r.model_names.map Val.s ++ [Val.s ("average")])
  , Val.s ("Normal prompt length") :: (r.masked_loss.map Val.q ++ [Val.q (npMean r.masked_loss)])
  , Val.s ("Shortened prompt length") :: (r.compressed_loss.map Val.q ++ [Val.q (npMean r.compressed_loss)])
  , Val.s ("One model loss") :: (r.individual_model_loss.map Val.q ++ [Val.q (npMean r.individual_model_loss)])
  ]

/-- The string `csv.reader` yields for a cell holding `v` — `str(v)` of the
original Python value.  (Floats are modelled as `ℚ`, so their decimal repr
is abstracted by `toString` on `ℚ`; the engine never compares these strings,
it only distinguishes them from the original typed values.) -/
def pyStrOfVal : Val → String
  | Val.i n => toString n
  | Val.q x => toString x
  | Val.s str => str

/-- A row slice `row[1:]` as read back by `csv.reader`: every cell is a
string. -/
def rawCells (row : List Val) : List Val :=
  (row.drop 1).map (fun v => Val.s (pyStrOfVal v))

/-- Python `float(cell)` applied to a csv cell that was written from `v`:
for cells written from a float or an int this recovers the value exactly
(Python's `float(str(x)) == x` round-trip); for a cell that was written from
a string, only integer literals convert, anything else raises `ValueError`.
(Decimal-literal strings are not distinguished here because every float cell
of this engine is modelled as `Val.q`.) -/
def pyFloatCell : Val → Except PyErr ℚ
  | Val.i n => Except.ok (n : ℚ)
  | Val.q x => Except.ok x
  | Val.s str =>
      match str.toInt? with
      | some n => Except.ok (n : ℚ)
      | none => Except.error PyErr.valueError

/-- Python `[float(c) for c in cells]`. -/
def floatList : List Val → Except PyErr (List ℚ)
  | [] => Except.ok []
  | v :: rest => do
      let x ← pyFloatCell v
      let xs ← floatList rest
      pure (x :: xs)

/-- Python `float(rows[i][1])`. -/
def scalarAt (rows : List (List Val)) (i : ℕ) : Except PyErr ℚ := do
  let row ← pyGet rows i
  let c ← pyGet row 1
  pyFloatCell c

/-- The attributes as they exist on the evaluator object after
`read_from_csv`: the three per-token assignment rows stay raw csv strings,
the certainty rows are never read, and the loss rows are float-converted
including their trailing mean cell. -/
structure LoadedState where
  model_per_token : List Val
  euc_nn_votes : List Val
  cos_nn_votes : List Val
  model_loss_per_token : List ℚ
  euc_accuracy : ℚ
  cos_accuracy : ℚ
  euc_waccuracy : ℚ
  cos_waccuracy : ℚ
  euc_to_cos_accuracy : ℚ
  masked_loss : List ℚ
  compressed_loss : List ℚ
  individual_model_loss : List ℚ
deriving DecidableEq

/-- `Token_Relevance_Evaluation.read_from_csv`, statement by statement:
`rows[1][1:]`, `rows[2][1:]`, `rows[3][1:]` kept raw, `rows[4][1:]`
float-converted, the five scalars at `rows[8][1] .. rows[12][1]`, and the
three loss rows `rows[15][1:]`, `rows[16][1:]`, `rows[17][1:]`
float-converted. -/
def readFromCsv (rows : List (List Val)) : Except PyErr LoadedState := do
  let row1 ← pyGet rows 1
  let row2 ← pyGet rows 2
  let row3 ← pyGet rows 3
  let row4 ← pyGet rows 4
  let mlpt ← floatList (row4.drop 1)
  let ea ← scalarAt rows 8
  let ca ← scalarAt rows 9
  let ew ← scalarAt rows 10
  let cw ← scalarAt rows 11
  let ec ← scalarAt rows 12
  let row15 ← pyGet rows 15
  let masked ← floatList (row15.drop 1)
  let row16 ← pyGet rows 16
  let compressed ← floatList (row16.drop 1)
  let row17 ← pyGet rows 17
  let indiv ← floatList (row17.drop 1)
  pure ⟨rawCells row1, rawCells row2, rawCells row3, mlpt,
        ea, ca, ew, cw, ec, masked, compressed, indiv⟩

/-- What `read_from_csv` reconstructs from a file written by
`save_results` for report `r`: label rows come back as decimal strings, the
importance scores and the five scalars come back exactly, the certainty
rows are dropped, and each loss sequence gains the trailing row mean as an
extra element. -/
def loadedOf (r : Report) : LoadedState :=
  ⟨ r.model_per_token.map (fun n => Val.s (toString n))
  , r.euc_nn_votes.map (fun v => Val.s (toString v.1))
  , r.cos_nn_votes.map (fun v => Val.s (toString v.1))
  , r.model_loss_per_token
  , r.euc_accuracy, r.cos_accuracy, r.euc_waccuracy, r.cos_waccuracy
  , r.euc_to_cos_accuracy
  , r.masked_loss ++ [npMean r.masked_loss]
  , r.compressed_loss ++ [npMean r.compressed_loss]
  , r.individual_model_loss ++ [npMean r.individual_model_loss] ⟩

/-- Combined output of `nn_evaluation`. -/
structure NNOut where
  euc_nn_votes : List (Int × ℚ)
  cos_nn_votes : List (Int × ℚ)
  euc_accuracy : ℚ
  cos_accuracy : ℚ
  euc_waccuracy : ℚ
  cos_waccuracy : ℚ
  euc_to_cos_accuracy : ℚ
deriving DecidableEq

/-- One evaluation configuration together with the responses of the
external collaborators for that configuration (constant across repeated
invocations with an unchanged configuration):
`dropOutResult` is the `prompt_token_drop_out` bulk oracle result (the
per-token model assignment and importance scores), `individualResult` the
`validate_soft_prompt_on_multiple_models` result, `validatePromptResult`
the `validate_prompt` oracle, `embeddingLabels` the per-row label array of
the embedding space, and the two `nearestNeighbors` fields the per-token
neighbor index lists returned by `get_k_nearest_neighbors_for_all_tokens`
for each distance metric. -/
structure Config where
  soft_prompt_name : String
  model_numbers : List Int
  model_names : List String
  prompt_length : ℕ
  k : ℕ
  use_test_set : Bool
  dropOutResult : Except PyErr (List Int × List ℚ)
  individualResult : Except PyErr (List ℚ)
  validatePromptResult : ValidateCall → Except PyErr ℚ
  embeddingLabels : List Int
  nearestNeighborsEuc : List (List ℕ)
  nearestNeighborsCos : List (List ℕ)

/-- The cache key of `token_relevance_evaluation`:
`logs/explainable-soft-prompts/<name>/checkpoints/<numbers joined by _>_evaluation_with_k_<k>`
followed by `_test.csv` or `.csv`. -/
def savePath (cfg : Config) : String :=
  "logs/explainable-soft-prompts/" ++ cfg.soft_prompt_name ++ "/checkpoints/"
    ++ String.intercalate ("_") (cfg.model_numbers.map (fun n => toString n))
    ++ "_evaluation_with_k_" ++ toString cfg.k
    ++ (if cfg.use_test_set then "_test.csv" else ".csv")

/-- The Result Store: a map from file path to persisted rows, modelling the
log directory. -/
def Store := List (String × List (List Val))

instance : DecidableEq Store :=
  inferInstanceAs (DecidableEq (List (String × List (List Val))))

/-- File lookup in the Result Store; `none` models `FileNotFoundError` on
`open(path, "r")`. -/
def lookupStore (store : Store) (path : String) : Option (List (List Val)) :=
  match store with
  | [] => none
  | (p, rows) :: rest => if p = path then some rows else lookupStore rest path

/-- The `nn_evaluation` method: both nearest-neighbor votes, the two
accuracies, the two weighted accuracies and the cross-metric agreement, in
source order. -/
def nnEvaluation (cfg : Config) (mpt : List Int) : Except PyErr NNOut := do
  let euc ← nnVotes cfg.k cfg.embeddingLabels cfg.nearestNeighborsEuc
  let cos ← nnVotes cfg.k cfg.embeddingLabels cfg.nearestNeighborsCos
  let ea ← accuracy mpt euc
  let ca ← accuracy mpt cos
  let ew ← waccuracy mpt euc
  let cw ← waccuracy mpt cos
  let ec ← crossAccuracy euc cos
  pure ⟨euc, cos, ea, ca, ew, cw, ec⟩

/-- Result of one invocation of `token_relevance_evaluation`: whether it
returned normally or raised, the Result Store afterwards, and the number of
Ablation Loss Oracle calls performed (`prompt_token_drop_out` and
`validate_soft_prompt_on_multiple_models` count as one bulk call each, and
each `validate_prompt` call counts as one). -/
structure RunResult where
  outcome : Except PyErr Unit
  store : Store
  calls : ℕ
deriving DecidableEq

/-- The `token_relevance_evaluation` entry point.  It first tries
`read_from_csv(save_path)`; only `FileNotFoundError` (a missing file) is
caught, any other read error propagates.  On a miss it runs
`loss_evaluation` (drop-out assignment, individual losses, then the
masked/compressed loop), then `nn_evaluation`, and only after every stage
has completed writes the report with `save_results`. -/
def runEvaluation (cfg : Config) (store : Store) : RunResult :=
  match lookupStore store (savePath cfg) with
  | some rows =>
      match readFromCsv rows with
      | Except.ok _ => ⟨Except.ok (), store, 0⟩
      | Except.error e => ⟨Except.error e, store, 0⟩
  | none =>
      match cfg.dropOutResult with
      | Except.error e => ⟨Except.error e, store, 1⟩
      | Except.ok (mpt, mlpt) =>
        match cfg.individualResult with
        | Except.error e => ⟨Except.error e, store, 2⟩
        | Except.ok indiv =>
          match lossLoop cfg.validatePromptResult mpt cfg.model_numbers with
          | (Except.error e, tr) => ⟨Except.error e, store, 2 + tr.length⟩
          | (Except.ok (masked, compressed), tr) =>
            match nnEvaluation cfg mpt with
            | Except.error e => ⟨Except.error e, store, 2 + tr.length⟩
            | Except.ok nn =>
                let r : Report :=
                  ⟨cfg.prompt_length, cfg.model_names, mpt, mlpt,
                   nn.euc_nn_votes, nn.cos_nn_votes,
                   nn.euc_accuracy, nn.cos_accuracy,
                   nn.euc_waccuracy, nn.cos_waccuracy, nn.euc_to_cos_accuracy,
                   masked, compressed, indiv⟩
                ⟨Except.ok (), (savePath cfg, saveRows r) :: store, 2 + tr.length⟩

/-- A small concrete report used to exercise the Result Store: two tokens,
two models, internally consistent with a run where both metrics agree with
the loss assignment. -/
def demoReport : Report :=
  ⟨ 2, ["m0", "m1"], [0, 1], [7, 9]
  , [(0, 1), (1, 1)], [(0, 1), (1, 1)]
  , 1, 1, 1, 1, 1
  , [1, 2], [3, 4], [5, 6] ⟩

/-- A concrete run configuration on which every pipeline stage succeeds:
two models, two tokens, `k = 1`, and collaborator responses consistent with
`demoReport`. -/
def demoCfg : Config :=
  ⟨ "sp", [0, 1], ["m0", "m1"], 2, 1, false
  , Except.ok ([0, 1], [7, 9])
  , Except.ok ([5, 6])
  , fun c => if c.shorten then Except.ok (3 + c.model_number) else Except.ok (1 + c.model_number)
  , [0, 1]
  , [[0], [1]]
  , [[0], [1]] ⟩

/-- A configuration whose first pipeline stage (the drop-out importance
assignment) raises. -/
def demoFailCfg : Config :=
  { demoCfg with dropOutResult := Except.error PyErr.valueError }

@[simp]
theorem ok_bind (a : α) (f : α → Except PyErr β) :
    (Except.ok a : Except PyErr α) >>= f = f a := rfl

@[simp]
theorem error_bind (e : PyErr) (f : α → Except PyErr β) :
    (Except.error e : Except PyErr α) >>= f = Except.error e := rfl

@[simp]
theorem pure_eq_ok (a : α) : (pure a : Except PyErr α) = Except.ok a := rfl

@[simp]
theorem pyGet_cons_zero (a : α) (l : List α) : pyGet (a :: l) 0 = Except.ok a := rfl

@[simp]
theorem pyGet_cons_succ (a : α) (l : List α) (n : ℕ) :
    pyGet (a :: l) (n + 1) = pyGet l n := rfl

@[simp]
theorem pyGet_nil (n : ℕ) : pyGet ([] : List α) n = Except.error PyErr.indexError := by
  cases n <;> rfl

@[simp]
theorem pyGet_pair_one (a b : α) (l : List α) : pyGet (a :: b :: l) 1 = Except.ok b := rfl

/-- Reading back a label row written from ints yields their decimal
strings. -/
theorem rawCells_int (lbl : String) (l : List Int) :
    rawCells (Val.s lbl :: l.map Val.i) = l.map (fun n => Val.s (toString n)) := by
  simp [rawCells, List.map_map, pyStrOfVal]

/-- Reading back an assignment row written from vote labels yields their
decimal strings. -/
theorem rawCells_fst (lbl : String) (l : List (Int × ℚ)) :
    rawCells (Val.s lbl :: l.map (fun v => Val.i v.1)) =
      l.map (fun v => Val.s (toString v.1)) := by
  simp [rawCells, List.map_map, pyStrOfVal]

/-- Float conversion recovers a row of float cells exactly. -/
theorem floatList_map_q (l : List ℚ) : floatList (l.map Val.q) = Except.ok l := by
  induction l with
  | nil => rfl
  | cons x xs ih => simp [floatList, pyFloatCell, ih]

/-- Round trip through the Result Store: reading a file written by
`save_results` succeeds and reconstructs exactly `loadedOf r`. -/
theorem read_save (r : Report) : readFromCsv (saveRows r) = Except.ok (loadedOf r) := by
  have hm : (r.masked_loss.map Val.q ++ [Val.q (npMean r.masked_loss)]) =
      (r.masked_loss ++ [npMean r.masked_loss]).map Val.q := by
    simp
  have hc : (r.compressed_loss.map Val.q ++ [Val.q (npMean r.compressed_loss)]) =
      (r.compressed_loss ++ [npMean r.compressed_loss]).map Val.q := by
    simp
  have hi : (r.individual_model_loss.map Val.q ++ [Val.q (npMean r.individual_model_loss)]) =
      (r.individual_model_loss ++ [npMean r.individual_model_loss]).map Val.q := by
    simp
  simp only [readFromCsv,
    show pyGet (saveRows r) 1 = Except.ok (Val.s ("Loss assignment") :: r.model_per_token.map Val.i) from rfl,
    show pyGet (saveRows r) 2 = Except.ok (Val.s ("Euclidean assignment") :: r.euc_nn_votes.map (fun v => Val.i v.1)) from rfl,
    show pyGet (saveRows r) 3 = Except.ok (Val.s ("Cosine assignment") :: r.cos_nn_votes.map (fun v => Val.i v.1)) from rfl,
    show pyGet (saveRows r) 4 = Except.ok (Val.s ("Loss") :: r.model_loss_per_token.map Val.q) from rfl,
    show scalarAt (saveRows r) 8 = Except.ok r.euc_accuracy from rfl,
    show scalarAt (saveRows r) 9 = Except.ok r.cos_accuracy from rfl,
    show scalarAt (saveRows r) 10 = Except.ok r.euc_waccuracy from rfl,
    show scalarAt (saveRows r) 11 = Except.ok r.cos_waccuracy from rfl,
    show scalarAt (saveRows r) 12 = Except.ok r.euc_to_cos_accuracy from rfl,
    show pyGet (saveRows r) 15 = Except.ok (Val.s ("Normal prompt length") ::
      (r.masked_loss.map Val.q ++ [Val.q (npMean r.masked_loss)])) from rfl,
    show pyGet (saveRows r) 16 = Except.ok (Val.s ("Shortened prompt length") ::
      (r.compressed_loss.map Val.q ++ [Val.q (npMean r.compressed_loss)])) from rfl,
    show pyGet (saveRows r) 17 = Except.ok (Val.s ("One model loss") ::
      (r.individual_model_loss.map Val.q ++ [Val.q (npMean r.individual_model_loss)])) from rfl,
    ok_bind, pure_eq_ok, List.drop_succ_cons, List.drop_zero, hm, hc, hi,
    floatList_map_q, rawCells_int, rawCells_fst, loadedOf]

/-- The pair selected by `most_common()[0]` is one of the counted pairs. -/
theorem pickMax_mem (xs : List (Int × ℕ)) (p : Int × ℕ) (h : pickMax xs = some p) :
    p ∈ xs := by
  induction xs with
  | nil => simp [pickMax] at h
  | cons q rest ih =>
      simp only [pickMax] at h
      cases hr : pickMax rest with
      | none =>
          rw [hr] at h
          simp only [Option.some.injEq] at h
          simp [← h]
      | some q2 =>
          rw [hr] at h
          by_cases hgt : q2.2 > q.2
          · simp only [hgt, if_pos] at h
            simp only [Option.some.injEq] at h
            exact List.mem_cons_of_mem _ (ih (h ▸ hr))
          · simp only [hgt, if_neg, not_false_eq_true] at h
            simp only [Option.some.injEq] at h
            simp [← h]

/-- Counter keys all occur in the counted list. -/
theorem firstOcc_subset (l : List Int) (a : Int) :
    ∀ seen, a ∈ firstOcc seen l → a ∈ l := by
  induction l with
  | nil => intro seen h; simp [firstOcc] at h
  | cons x rest ih =>
      intro seen h
      simp only [firstOcc] at h
      by_cases hx : x ∈ seen
      · simp only [hx, if_pos] at h
        exact List.mem_cons_of_mem _ (ih _ h)
      · simp only [hx, if_neg, not_false_eq_true] at h
        rcases List.mem_cons.mp h with h1 | h2
        · simp [h1]
        · exact List.mem_cons_of_mem _ (ih _ h2)

/-- The head of `most_common()` carries the count of its own key, and the
key occurs in the list. -/
theorem mostCommon_count (l : List Int) (b : Int) (c : ℕ)
    (h : mostCommon l = some (b, c)) : c = l.count b ∧ b ∈ l := by
  have hmem := pickMax_mem _ _ h
  rcases List.mem_map.mp hmem with ⟨a, ha, hpair⟩
  have hab : a = b := congrArg Prod.fst hpair
  have hcount : c = l.count b := by
    have := congrArg Prod.snd hpair
    simp only at this
    rw [← this, hab]
  exact ⟨hcount, hab ▸ firstOcc_subset l a [] ha⟩

/-- The neighbor-label list has one label per neighbor index. -/
theorem pyMapGet_length (labels : List Int) (tn : List ℕ) (nl : List Int)
    (h : pyMapGet labels tn = Except.ok nl) : nl.length = tn.length := by
  induction tn generalizing nl with
  | nil =>
      simp only [pyMapGet] at h
      cases h
      rfl
  | cons n rest ih =>
      simp only [pyMapGet] at h
      cases hv : pyGet labels n with
      | error e => rw [hv] at h; simp at h
      | ok v =>
          rw [hv] at h
          simp only [ok_bind] at h
          cases hr : pyMapGet labels rest with
          | error e => rw [hr] at h; simp at h
          | ok vs =>
              rw [hr] at h
              simp only [ok_bind, pure_eq_ok, Except.ok.injEq] at h
              rw [← h]
              simp [ih vs hr]

/-- C6: for every token and either distance metric, when the token's
neighbor list has exactly `k` entries and the vote succeeds, the returned
certainty lies in `[1/k, 1]` and certainty times `k` equals the count of
the majority label among the `k` neighbor labels (in particular it is an
integer); the witness instantiates the claim's scenario `k = 5`, neighbor
labels `[A, A, A, B, B]`, assigned label `A`, certainty `3/5 = 0.6`. -/
theorem claim6_certainty_invariant (k : ℕ) (labels : List Int) (tn : List ℕ)
    (m : Int) (cert : ℚ)
    (hlen : tn.length = k)
    (hok : nnVoteOne k labels tn = Except.ok (m, cert)) :
    1 / (k : ℚ) ≤ cert ∧ cert ≤ 1 ∧
    ∀ nl, pyMapGet labels tn = Except.ok nl → cert * (k : ℚ) = (nl.count m : ℚ) := by
  unfold nnVoteOne at hok
  cases hnl : pyMapGet labels tn with
  | error e => rw [hnl] at hok; simp at hok
  | ok nl =>
      rw [hnl] at hok
      simp only [ok_bind] at hok
      cases hmc : mostCommon nl with
      | none => rw [hmc] at hok; simp at hok
      | some mc =>
          obtain ⟨b, c⟩ := mc
          rw [hmc] at hok
          simp only [pyDiv] at hok
          by_cases hk0 : (k : ℚ) = 0
          · rw [if_pos hk0] at hok
            simp at hok
          · rw [if_neg hk0] at hok
            simp only [ok_bind, pure_eq_ok, Except.ok.injEq, Prod.mk.injEq] at hok
            obtain ⟨hbm, hcert⟩ := hok
            have hkpos : (0 : ℚ) < (k : ℚ) := by
              have : k ≠ 0 := by
                intro h
                exact hk0 (by rw [h]; norm_num)
              exact_mod_cast Nat.pos_of_ne_zero this
            obtain ⟨hcount, hbmem⟩ := mostCommon_count nl b c hmc
            have hnlen : nl.length = k := by rw [pyMapGet_length labels tn nl hnl, hlen]
            have hc1 : 1 ≤ c := by
              have : 0 < nl.count b := List.count_pos_iff.mpr hbmem
              omega
            have hck : c ≤ k := by
              have := List.count_le_length b nl
              omega
            refine ⟨?_, ?_, ?_⟩
            · rw [← hcert]
              exact (div_le_div_iff_of_pos_right hkpos).mpr (by exact_mod_cast hc1)
            · rw [← hcert]
              exact (div_le_one hkpos).mpr (by exact_mod_cast hck)
            · intro nl2 hnl2
              have hnl2e : nl = nl2 := by
                simpa using hnl2
              rw [← hnl2e, ← hcert, ← hbm, div_mul_cancel₀ _ hk0, hcount]

/-- Witness for C6 at the claim's scenario: five neighbors with labels
`[A, A, A, B, B]` (A = 0, B = 1) yield label `A` with certainty `0.6`, and
the invariant holds there. -/
theorem claim6_certainty_invariant_witness :
    nnVoteOne 5 [0, 0, 0, 1, 1] [0, 1, 2, 3, 4] = Except.ok (0, 3/5) ∧
    (1 / ((5 : ℕ) : ℚ) ≤ 3/5 ∧ (3/5 : ℚ) ≤ 1 ∧
      ((3/5 : ℚ) * ((5 : ℕ) : ℚ) = (([0, 0, 0, 1, 1] : List Int).count 0 : ℚ))) := by
  have hvote : nnVoteOne 5 [0, 0, 0, 1, 1] [0, 1, 2, 3, 4] = Except.ok (0, 3/5) := by
    simp +decide [nnVoteOne, pyMapGet, pyGet, mostCommon, firstOcc, pickMax, pyDiv,
      List.count, List.countP, List.countP.go, ok_bind]
  have hmap : pyMapGet [0, 0, 0, 1, 1] [0, 1, 2, 3, 4] = Except.ok [0, 0, 0, 1, 1] := by
    simp +decide [pyMapGet, pyGet, ok_bind]
  have h := claim6_certainty_invariant 5 [0, 0, 0, 1, 1] [0, 1, 2, 3, 4] 0 (3/5)
    (by decide) hvote
  exact ⟨hvote, h.1, h.2.1, h.2.2 [0, 0, 0, 1, 1] hmap⟩

/-- Shifting the index list of a Python generator sum. -/
theorem pySum_map_succ (f : ℕ → Except PyErr ℚ) (l : List ℕ) :
    pySum f (l.map Nat.succ) = pySum (fun i => f (i + 1)) l := by
  induction l with
  | nil => rfl
  | cons i rest ih => simp [pySum, ih, Nat.succ_eq_add_one]

theorem numTerm_succ (m : Int) (ms : List Int) (v : Int × ℚ) (vs : List (Int × ℚ)) (i : ℕ) :
    numTerm (m :: ms) (v :: vs) (i + 1) = numTerm ms vs i := rfl

theorem certTerm_succ (v : Int × ℚ) (vs : List (Int × ℚ)) (i : ℕ) :
    certTerm (v :: vs) (i + 1) = certTerm vs i := rfl

/-- The index-driven numerator sum of the weighted accuracy equals the
per-token sum of match indicators times certainties, whenever the
assignment and vote lists are parallel. -/
theorem pySum_numTerm (votes : List (Int × ℚ)) (mpt : List Int)
    (h : mpt.length = votes.length) :
    pySum (numTerm mpt votes) (List.range votes.length) =
      Except.ok (((mpt.zip votes).map (fun p => indicator (p.2.1 = p.1) * p.2.2)).sum) := by
  induction votes generalizing mpt with
  | nil =>
      cases mpt with
      | nil => simp [pySum]
      | cons m ms => simp at h
  | cons v vs ih =>
      cases mpt with
      | nil => simp at h
      | cons m ms =>
          have hlen : ms.length = vs.length := by simpa using h
          rw [show (v :: vs).length = vs.length + 1 from rfl, List.range_succ_eq_map]
          simp only [pySum, pySum_map_succ, numTerm_succ,
            show numTerm (m :: ms) (v :: vs) 0 =
              Except.ok (indicator (v.1 = m) * v.2) from rfl, ok_bind]
          rw [show (fun i => numTerm ms vs i) = numTerm ms vs from rfl, ih ms hlen]
          simp

/-- The index-driven denominator sum of the weighted accuracy equals the
sum of the certainties. -/
theorem pySum_certTerm (votes : List (Int × ℚ)) :
    pySum (certTerm votes) (List.range votes.length) =
      Except.ok ((votes.map Prod.snd).sum) := by
  induction votes with
  | nil => simp [pySum]
  | cons v vs ih =>
      rw [show (v :: vs).length = vs.length + 1 from rfl, List.range_succ_eq_map]
      simp only [pySum, pySum_map_succ, certTerm_succ,
        show certTerm (v :: vs) 0 = Except.ok v.2 from rfl, ok_bind]
      rw [show (fun i => certTerm vs i) = certTerm vs from rfl, ih]
      simp

/-- C7: with parallel per-token label and vote lists, at least one token,
and a nonzero certainty sum, the computed weighted accuracy equals the sum
over tokens of indicator(vote label = ablation label) times certainty,
divided by the sum of certainties. -/
theorem claim7_weighted_accuracy_formula (mpt : List Int) (votes : List (Int × ℚ))
    (hlen : mpt.length = votes.length) (hpos : 0 < votes.length)
    (hden : (votes.map Prod.snd).sum ≠ 0) :
    waccuracy mpt votes =
      Except.ok ((((mpt.zip votes).map (fun p => indicator (p.2.1 = p.1) * p.2.2)).sum) /
        ((votes.map Prod.snd).sum)) := by
  unfold waccuracy
  rw [pySum_numTerm votes mpt hlen, pySum_certTerm votes]
  simp [pyDiv, hden]

/-- Witness for C7: two tokens, both votes matching the assignment with
certainties 1/2 and 1/4. -/
theorem claim7_weighted_accuracy_formula_witness :
    (([0, 1] : List Int).length = ([((0 : Int), (1/2 : ℚ)), (1, 1/4)]).length) ∧
    (0 < ([((0 : Int), (1/2 : ℚ)), (1, 1/4)]).length) ∧
    (([((0 : Int), (1/2 : ℚ)), (1, 1/4)].map Prod.snd).sum ≠ 0) ∧
    waccuracy [0, 1] [((0 : Int), (1/2 : ℚ)), (1, 1/4)] =
      Except.ok (((([0, 1] : List Int).zip [((0 : Int), (1/2 : ℚ)), (1, 1/4)]).map
          (fun p => indicator (p.2.1 = p.1) * p.2.2)).sum /
        (([((0 : Int), (1/2 : ℚ)), (1, 1/4)].map Prod.snd).sum)) := by
  refine ⟨rfl, by decide, by norm_num, ?_⟩
  exact claim7_weighted_accuracy_formula [0, 1] [((0 : Int), (1/2 : ℚ)), (1, 1/4)]
    rfl (by decide) (by norm_num)

/-- C3 counterexample: with all certainties zero the weighted-accuracy
computation raises `ZeroDivisionError` — it is not surfaced as an explicit
computed-as-undefined result. -/
theorem claim3_counterexample :
    waccuracy [1, 1, 1, 1] [(1, 0), (1, 0), (1, 0), (1, 0)] =
      Except.error PyErr.zeroDivisionError := by
  have h : (([((1 : Int), (0 : ℚ)), (1, 0), (1, 0), (1, 0)]).map Prod.snd).sum = 0 := by
    norm_num
  unfold waccuracy
  rw [pySum_numTerm _ _ rfl, pySum_certTerm, h]
  simp [pyDiv]

/-- C3 amended: whenever the certainty sum is zero (and the label list is
parallel to the vote list), the weighted-accuracy computation raises
`ZeroDivisionError` — an unguarded crash, though never a silently wrong
value. -/
theorem claim3_degenerate_raises (mpt : List Int) (votes : List (Int × ℚ))
    (hlen : mpt.length = votes.length)
    (hden : (votes.map Prod.snd).sum = 0) :
    waccuracy mpt votes = Except.error PyErr.zeroDivisionError := by
  unfold waccuracy
  rw [pySum_numTerm votes mpt hlen, pySum_certTerm votes, hden]
  simp [pyDiv]

/-- Witness for the amended C3 at the claim's scenario of four tokens with
certainties `[0, 0, 0, 0]`. -/
theorem claim3_degenerate_raises_witness :
    (([2, 2, 2, 2] : List Int).length =
      ([((2 : Int), (0 : ℚ)), (2, 0), (2, 0), (2, 0)]).length) ∧
    (([((2 : Int), (0 : ℚ)), (2, 0), (2, 0), (2, 0)].map Prod.snd).sum = 0) ∧
    waccuracy [2, 2, 2, 2] [(2, 0), (2, 0), (2, 0), (2, 0)] =
      Except.error PyErr.zeroDivisionError := by
  refine ⟨rfl, by norm_num, ?_⟩
  exact claim3_degenerate_raises [2, 2, 2, 2] [(2, 0), (2, 0), (2, 0), (2, 0)]
    rfl (by norm_num)

/-- Membership in the enumeration comprehension. -/
theorem enumKeep_mem (m : Int) (l : List Int) :
    ∀ s j, j ∈ enumKeep m s l ↔ ∃ i, l.get? i = some m ∧ j = s + i := by
  induction l with
  | nil => intro s j; simp [enumKeep]
  | cons x rest ih =>
      intro s j
      simp only [enumKeep]
      by_cases hx : x = m
      · rw [if_pos hx]
        constructor
        · intro h
          rcases List.mem_cons.mp h with h1 | h2
          · exact ⟨0, by simp [hx], by omega⟩
          · rcases (ih (s + 1) j).mp h2 with ⟨i, hi, hj⟩
            exact ⟨i + 1, by simpa using hi, by omega⟩
        · rintro ⟨i, hi, hj⟩
          cases i with
          | zero => simp [show j = s by omega]
          | succ i2 =>
              exact List.mem_cons_of_mem _
                ((ih (s + 1) j).mpr ⟨i2, by simpa using hi, by omega⟩)
      · rw [if_neg hx]
        constructor
        · intro h
          rcases (ih (s + 1) j).mp h with ⟨i, hi, hj⟩
          exact ⟨i + 1, by simpa using hi, by omega⟩
        · rintro ⟨i, hi, hj⟩
          cases i with
          | zero =>
              simp only [List.get?_cons_zero, Option.some.injEq] at hi
              exact absurd hi hx
          | succ i2 =>
              exact (ih (s + 1) j).mpr ⟨i2, by simpa using hi, by omega⟩

/-- The kept-token set for model `m` consists exactly of the positions the
importance assignment maps to `m`. -/
theorem tokensToKeep_mem (mpt : List Int) (m : Int) (j : ℕ) :
    j ∈ tokensToKeep mpt m ↔ mpt.get? j = some m := by
  unfold tokensToKeep
  rw [enumKeep_mem]
  constructor
  · rintro ⟨i, hi, hj⟩
    rw [show j = i by omega]
    exact hi
  · intro h
    exact ⟨j, h, by omega⟩

/-- Every call in the `loss_evaluation` trace targets a model of the pool. -/
theorem lossLoop_trace_model (oracle : ValidateCall → Except PyErr ℚ) (mpt : List Int)
    (mns : List Int) (c : ValidateCall)
    (h : c ∈ (lossLoop oracle mpt mns).2) : c.model_number ∈ mns := by
  induction mns with
  | nil => simp [lossLoop] at h
  | cons m rest ih =>
      simp only [lossLoop] at h
      split at h
      · rcases List.mem_singleton.mp h with rfl
        simp
      · split at h
        · rcases List.mem_cons.mp h with rfl | h2
          · simp
          · rcases List.mem_singleton.mp h2 with rfl
            simp
        · rename_i heq3
          split at h
          · rename_i e tr heq
            rcases List.mem_cons.mp h with rfl | h2
            · simp
            · rcases List.mem_cons.mp h2 with rfl | h3
              · simp
              · refine List.mem_cons_of_mem _ (ih ?_)
                rw [show (lossLoop oracle mpt rest).2 = tr from congrArg Prod.snd heq]
                exact h3
          · rename_i p tr heq
            rcases List.mem_cons.mp h with rfl | h2
            · simp
            · rcases List.mem_cons.mp h2 with rfl | h3
              · simp
              · refine List.mem_cons_of_mem _ (ih ?_)
                rw [show (lossLoop oracle mpt rest).2 = tr from congrArg Prod.snd heq]
                exact h3

/-- On a successful `loss_evaluation` run the trace of `validate_prompt`
calls is exactly, in pool order: for each model, the masked call
(`inverse=True, shorten=False`) followed by the compressed call
(`inverse=True, shorten=True`), both with that model's kept-token set. -/
theorem lossLoop_ok_trace (oracle : ValidateCall → Except PyErr ℚ) (mpt : List Int) :
    ∀ (mns : List Int) (out : List ℚ × List ℚ),
      (lossLoop oracle mpt mns).1 = Except.ok out →
      (lossLoop oracle mpt mns).2 =
        mns.bind (fun m => [⟨m, tokensToKeep mpt m, true, false⟩,
                            ⟨m, tokensToKeep mpt m, true, true⟩]) := by
  intro mns
  induction mns with
  | nil => intro out hok; simp [lossLoop]
  | cons m2 rest ih =>
      intro out hok
      simp only [lossLoop] at hok ⊢
      split at hok
      · simp at hok
      · split at hok
        · simp at hok
        · split at hok
          · simp at hok
          · rename_i ms cs tr heq
            have hfst : (lossLoop oracle mpt rest).1 = Except.ok (ms, cs) :=
              congrArg Prod.fst heq
            have htr : (lossLoop oracle mpt rest).2 = tr := congrArg Prod.snd heq
            have hrec := ih (ms, cs) hfst
            rw [htr] at hrec
            simp [List.cons_bind, hrec]

/-- Filtering the call trace of a duplicate-free pool down to one model
leaves exactly that model's masked and compressed calls. -/
theorem filter_bind_calls (mpt : List Int) (m : Int) :
    ∀ mns : List Int, mns.Nodup → m ∈ mns →
      ((mns.bind (fun m2 => [⟨m2, tokensToKeep mpt m2, true, false⟩,
          ⟨m2, tokensToKeep mpt m2, true, true⟩])) : List ValidateCall).filter
            (fun c => c.model_number == m) =
        [⟨m, tokensToKeep mpt m, true, false⟩, ⟨m, tokensToKeep mpt m, true, true⟩] := by
  intro mns
  induction mns with
  | nil => intro _ hm; simp at hm
  | cons m2 rest ih =>
      intro hnd hm
      simp only [List.cons_bind, List.filter_append]
      by_cases hmm : m2 = m
      · subst hmm
        have hnotin : m2 ∉ rest := (List.nodup_cons.mp hnd).1
        have h2 : ((rest.bind (fun a => [⟨a, tokensToKeep mpt a, true, false⟩,
            ⟨a, tokensToKeep mpt a, true, true⟩])) : List ValidateCall).filter
              (fun c => c.model_number == m2) = [] := by
          rw [List.filter_eq_nil_iff]
          intro c hc
          rcases List.mem_bind.mp hc with ⟨a, ha, hcf⟩
          have hca : c.model_number = a := by
            rcases List.mem_cons.mp hcf with rfl | hcf2
            · rfl
            · rcases List.mem_singleton.mp hcf2 with rfl
              rfl
          simp only [beq_iff_eq, hca]
          intro heq
          exact hnotin (heq ▸ ha)
        rw [h2]
        simp [List.filter]
      · have hmr : m ∈ rest := by
          rcases List.mem_cons.mp hm with h | h
          · exact absurd h.symm hmm
          · exact h
        have hb : (m2 == m) = false := beq_eq_false_iff_ne.mpr hmm
        have h1 : (List.filter (fun c => c.model_number == m)
            [(⟨m2, tokensToKeep mpt m2, true, false⟩ : ValidateCall),
             ⟨m2, tokensToKeep mpt m2, true, true⟩]) = [] := by
          simp [List.filter, hb]
        rw [h1, ih (List.nodup_cons.mp hnd).2 hmr]
        simp

/-- C8: on a successful `loss_evaluation` run over a duplicate-free model
pool, the model's masked-loss and compressed-loss evaluations are exactly
two `validate_prompt` calls carrying the identical kept-token set — the
masked one with `inverse=True, shorten=False`, the compressed one with
`inverse=True, shorten=True` — and that kept-token set consists exactly of
the positions the importance assignment maps to the model. -/
theorem claim8_masked_compressed_same_kept_set
    (oracle : ValidateCall → Except PyErr ℚ) (mpt : List Int) (mns : List Int)
    (m : Int) (out : List ℚ × List ℚ)
    (hnd : mns.Nodup) (hm : m ∈ mns)
    (hok : (lossLoop oracle mpt mns).1 = Except.ok out) :
    (lossLoop oracle mpt mns).2.filter (fun c => c.model_number == m) =
      [⟨m, tokensToKeep mpt m, true, false⟩, ⟨m, tokensToKeep mpt m, true, true⟩] ∧
    ∀ j, j ∈ tokensToKeep mpt m ↔ mpt.get? j = some m := by
  refine ⟨?_, tokensToKeep_mem mpt m⟩
  rw [lossLoop_ok_trace oracle mpt mns out hok]
  exact filter_bind_calls mpt m mns hnd hm

/-- Witness for C8: pool `[0, 1]`, assignment `[0, 1, 0]`, a constant
oracle; model 1 keeps exactly position 1 and receives the two calls with
that kept set. -/
theorem claim8_masked_compressed_same_kept_set_witness :
    (([0, 1] : List Int).Nodup ∧ (1 : Int) ∈ ([0, 1] : List Int) ∧
      (lossLoop (fun _ => Except.ok (1 : ℚ)) [0, 1, 0] [0, 1]).1 =
        Except.ok ([1, 1], [1, 1])) ∧
    (lossLoop (fun _ => Except.ok (1 : ℚ)) [0, 1, 0] [0, 1]).2.filter
        (fun c => c.model_number == 1) =
      [⟨1, tokensToKeep [0, 1, 0] 1, true, false⟩,
       ⟨1, tokensToKeep [0, 1, 0] 1, true, true⟩] ∧
    (1 ∈ tokensToKeep [0, 1, 0] 1 ↔ ([0, 1, 0] : List Int).get? 1 = some 1) := by
  have h := claim8_masked_compressed_same_kept_set (fun _ => Except.ok (1 : ℚ))
    [0, 1, 0] [0, 1] 1 ([1, 1], [1, 1]) (by decide) (by decide) (by decide)
  exact ⟨⟨by decide, by decide, by decide⟩, h.1, h.2 1⟩

/-- C1 counterexample: for the concrete report `demoReport`, saving and
reloading succeeds but does not reproduce the report — the loaded masked
losses are not the saved masked losses (the row mean was read back as an
extra loss) and the loaded per-token labels are csv strings, not the
original integer labels; the certainty rows are not reconstructed at all
(`LoadedState` carries no certainty field). -/
theorem claim1_counterexample :
    readFromCsv (saveRows demoReport) = Except.ok (loadedOf demoReport) ∧
    (loadedOf demoReport).masked_loss ≠ demoReport.masked_loss ∧
    (loadedOf demoReport).model_per_token ≠ demoReport.model_per_token.map Val.i := by
  refine ⟨read_save demoReport, ?_, ?_⟩
  · intro h
    have := congrArg List.length h
    simp [loadedOf, demoReport] at this
  · intro h
    have := congrArg (fun l => l.get? 0) h
    simp [loadedOf, demoReport] at this

/-- C1 amended: saving then loading reconstructs the importance scores and
all five scalar statistics exactly and reconstructs each per-token label
row as the decimal strings of the saved labels; the per-token certainties
are not reconstructed (the vote fields degenerate to label strings), and
each per-model loss sequence comes back with the persisted row mean
appended as an extra element. -/
theorem claim1_roundtrip_reconstruction (r : Report) :
    readFromCsv (saveRows r) = Except.ok
      ⟨ r.model_per_token.map (fun n => Val.s (toString n))
      , r.euc_nn_votes.map (fun v => Val.s (toString v.1))
      , r.cos_nn_votes.map (fun v => Val.s (toString v.1))
      , r.model_loss_per_token
      , r.euc_accuracy, r.cos_accuracy, r.euc_waccuracy, r.cos_waccuracy
      , r.euc_to_cos_accuracy
      , r.masked_loss ++ [npMean r.masked_loss]
      , r.compressed_loss ++ [npMean r.compressed_loss]
      , r.individual_model_loss ++ [npMean r.individual_model_loss] ⟩ :=
  read_save r

/-- C10: when the three persisted loss rows hold one value per pool model
plus the trailing mean, the loaded loss sequences each contain one more
element than the model pool: the mean cell is read back as if it were an
additional per-model loss. -/
theorem claim10_mean_read_back_as_loss (r : Report) (st : LoadedState)
    (hread : readFromCsv (saveRows r) = Except.ok st)
    (hm : r.masked_loss.length = r.model_names.length)
    (hc : r.compressed_loss.length = r.model_names.length)
    (hi : r.individual_model_loss.length = r.model_names.length) :
    (st.masked_loss.length = r.model_names.length + 1 ∧
      st.masked_loss = r.masked_loss ++ [npMean r.masked_loss]) ∧
    (st.compressed_loss.length = r.model_names.length + 1 ∧
      st.compressed_loss = r.compressed_loss ++ [npMean r.compressed_loss]) ∧
    (st.individual_model_loss.length = r.model_names.length + 1 ∧
      st.individual_model_loss = r.individual_model_loss ++ [npMean r.individual_model_loss]) := by
  have h := read_save r
  rw [hread] at h
  have hst : st = loadedOf r := Except.ok.inj h
  subst hst
  refine ⟨⟨?_, rfl⟩, ⟨?_, rfl⟩, ⟨?_, rfl⟩⟩
  · simp [loadedOf, hm]
  · simp [loadedOf, hc]
  · simp [loadedOf, hi]

/-- Witness for C10 at the concrete report `demoReport` (two models, loss
rows of length two). -/
theorem claim10_mean_read_back_as_loss_witness :
    (readFromCsv (saveRows demoReport) = Except.ok (loadedOf demoReport) ∧
      demoReport.masked_loss.length = demoReport.model_names.length ∧
      demoReport.compressed_loss.length = demoReport.model_names.length ∧
      demoReport.individual_model_loss.length = demoReport.model_names.length) ∧
    (loadedOf demoReport).masked_loss.length = demoReport.model_names.length + 1 ∧
    (loadedOf demoReport).masked_loss =
      demoReport.masked_loss ++ [npMean demoReport.masked_loss] := by
  have h := claim10_mean_read_back_as_loss demoReport (loadedOf demoReport)
    (read_save demoReport) (by decide) (by decide) (by decide)
  exact ⟨⟨read_save demoReport, by decide, by decide, by decide⟩, h.1.1, h.1.2⟩

/-- A nonconforming persisted file: the rows of a saved report with the
masked-loss row (index 15) and the compressed-loss row (index 16)
swapped. -/
def malformedRows : List (List Val) :=
  (saveRows demoReport).take 15 ++
    [(saveRows demoReport).getD 16 [], (saveRows demoReport).getD 15 []] ++
    (saveRows demoReport).drop 17

/-- What `read_from_csv` reconstructs from `malformedRows`: the report with
its masked and compressed loss sequences silently interchanged. -/
def malformedLoaded : LoadedState :=
  { loadedOf demoReport with
    masked_loss := demoReport.compressed_loss ++ [npMean demoReport.compressed_loss]
    compressed_loss := demoReport.masked_loss ++ [npMean demoReport.masked_loss] }

/-- C4 counterexample: a persisted file that does not conform to the fixed
schema (its loss rows are reordered) is loaded without any error, and the
resulting report is silently wrong — its masked losses are the saved
compressed losses. -/
theorem claim4_counterexample :
    malformedRows ≠ saveRows demoReport ∧
    readFromCsv malformedRows = Except.ok malformedLoaded ∧
    malformedLoaded.masked_loss ≠ (loadedOf demoReport).masked_loss := by
  refine ⟨?_, rfl, ?_⟩
  · intro h
    have := congrArg (fun rows => (rows.getD 15 []).getD 0 (Val.i 0)) h
    simp [malformedRows, saveRows, demoReport] at this
  · intro h
    have := congrArg (fun l => l.getD 0 0) h
    simp [malformedLoaded, loadedOf, demoReport] at this

/-- C4 amended: the reader performs no schema validation.  A file missing
the rows the fixed positions require fails loudly with an uncaught index
error (shown in general for files with at most one row and concretely for
a truncated save), but a nonconforming file whose fixed positions still
parse — such as one with reordered numeric rows — is read back without any
error. -/
theorem claim4_no_schema_validation :
    (∀ rows : List (List Val), rows.length ≤ 1 →
      readFromCsv rows = Except.error PyErr.indexError) ∧
    readFromCsv ((saveRows demoReport).take 17) = Except.error PyErr.indexError ∧
    (readFromCsv malformedRows).isOk = true := by
  refine ⟨?_, rfl, rfl⟩
  intro rows h
  match rows with
  | [] => rfl
  | [r0] => rfl
  | r0 :: r1 :: rest => simp at h

/-- Witness for the amended C4 at the empty file. -/
theorem claim4_no_schema_validation_witness :
    (([] : List (List Val)).length ≤ 1) ∧
    readFromCsv ([] : List (List Val)) = Except.error PyErr.indexError :=
  ⟨by decide, claim4_no_schema_validation.1 [] (by decide)⟩

/-- The token-index header row written by `save_results`. -/
def headerRow (r : Report) : List Val :=
  Val.s ("token id") :: (List.range r.prompt_length).map (fun i => Val.i i)

/-- The six per-token rows written by `save_results`, in order: loss-based
assignment, Euclidean-vote assignment, cosine-vote assignment, loss-based
importance score, Euclidean certainty, cosine certainty. -/
def perTokenRows (r : Report) : List (List Val) :=
  [ Val.s ("Loss assignment") :: r.model_per_token.map Val.i
  , Val.s ("Euclidean assignment") :: r.euc_nn_votes.map (fun v => Val.i v.1)
  , Val.s ("Cosine assignment") :: r.cos_nn_votes.map (fun v => Val.i v.1)
  , Val.s ("Loss") :: r.model_loss_per_token.map Val.q
  , Val.s ("Euclidean certanty") :: r.euc_nn_votes.map (fun v => Val.q v.2)
  , Val.s ("Cosine certanty") :: r.cos_nn_votes.map (fun v => Val.q v.2) ]

/-- A blank separator row (`writer.writerow([""])`). -/
def blankRow : List Val :=
  [Val.s ("")]

/-- The five scalar rows written by `save_results`, in order. -/
def scalarRows (r : Report) : List (List Val) :=
  [ [Val.s ("Euclidean accuracy"), Val.q r.euc_accuracy]
  , [Val.s ("Cosine accuracy"), Val.q r.cos_accuracy]
  , [Val.s ("Euclidean weighted accuracy"), Val.q r.euc_waccuracy]
  , [Val.s ("Cosine weighted accuracy"), Val.q r.cos_waccuracy]
  , [Val.s ("Euclidean to cosine accuracy"), Val.q r.euc_to_cos_accuracy] ]

/-- The per-model header row written by `save_results` between the second
blank row and the loss rows: the label `Prompt compression`, the model
names in pool order, and the literal `average`. -/
def compressionHeaderRow (r : Report) : List Val :=
  Val.s ("Prompt compression") :: (r.model_names.map Val.s ++ [Val.s ("average")])

/-- The three per-model loss rows written by `save_results`, in order:
masked, compressed, baseline/individual, each with one value per model in
pool order plus the trailing arithmetic mean. -/
def lossRows (r : Report) : List (List Val) :=
  [ Val.s ("Normal prompt length") ::
      (r.masked_loss.map Val.q ++ [Val.q (npMean r.masked_loss)])
  , Val.s ("Shortened prompt length") ::
      (r.compressed_loss.map Val.q ++ [Val.q (npMean r.compressed_loss)])
  , Val.s ("One model loss") ::
      (r.individual_model_loss.map Val.q ++ [Val.q (npMean r.individual_model_loss)]) ]

/-- Modelled from the spec: the row layout claimed by §6/C5 — a header row
of token indices, the six per-token rows, a blank separator row, the five
scalar rows, another blank separator row, then immediately the three
per-model loss rows, with no other rows interposed. -/
def claimedLayout (r : Report) : List (List Val) :=
  [headerRow r] ++ perTokenRows r ++ [blankRow] ++ scalarRows r ++ [blankRow] ++ lossRows r

/-- C5 counterexample: the rows `save_results` actually writes are not the
claimed layout — for the concrete report `demoReport` the file has 18 rows
(the claimed layout has 17) because the `Prompt compression` header row is
interposed between the second blank row and the loss rows. -/
theorem claim5_counterexample : saveRows demoReport ≠ claimedLayout demoReport := by
  intro h
  have := congrArg List.length h
  simp [saveRows, claimedLayout, headerRow, perTokenRows, blankRow, scalarRows,
    lossRows, demoReport] at this

/-- C5 amended: the persisted rows are, in order: the token-index header
row, the six per-token rows, a blank separator row, the five scalar rows,
another blank separator row, a per-model header row (`Prompt compression`,
the model names, `average`), and then the three per-model loss rows with
trailing means — with no further rows interposed. -/
theorem claim5_row_layout (r : Report) :
    saveRows r =
      [headerRow r] ++ perTokenRows r ++ [blankRow] ++ scalarRows r ++ [blankRow] ++
        [compressionHeaderRow r] ++ lossRows r := rfl

/-- A successful `loss_evaluation` performs exactly two `validate_prompt`
calls per pool model. -/
theorem lossLoop_ok_calls (oracle : ValidateCall → Except PyErr ℚ) (mpt : List Int)
    (mns : List Int) (out : List ℚ × List ℚ)
    (hok : (lossLoop oracle mpt mns).1 = Except.ok out) :
    (lossLoop oracle mpt mns).2.length = 2 * mns.length := by
  rw [lossLoop_ok_trace oracle mpt mns out hok]
  clear hok
  induction mns with
  | nil => simp
  | cons m rest ih =>
      simp only [List.cons_bind, List.length_append, List.length_cons, ih]
      simp
      omega

/-- The result of a cache-miss run on which all pipeline stages succeed:
it returns normally, writes the assembled report under the cache key, and
performs `2 + |trace|` oracle calls. -/
theorem runEvaluation_miss_ok (cfg : Config) (store : Store)
    (mpt : List Int) (mlpt : List ℚ) (indiv : List ℚ) (ms cs : List ℚ)
    (tr : List ValidateCall) (nn : NNOut)
    (hmiss : lookupStore store (savePath cfg) = none)
    (hdrop : cfg.dropOutResult = Except.ok (mpt, mlpt))
    (hind : cfg.individualResult = Except.ok indiv)
    (hloop : lossLoop cfg.validatePromptResult mpt cfg.model_numbers =
      (Except.ok (ms, cs), tr))
    (hnn : nnEvaluation cfg mpt = Except.ok nn) :
    runEvaluation cfg store =
      ⟨Except.ok (), (savePath cfg,
        saveRows ⟨cfg.prompt_length, cfg.model_names, mpt, mlpt,
          nn.euc_nn_votes, nn.cos_nn_votes, nn.euc_accuracy, nn.cos_accuracy,
          nn.euc_waccuracy, nn.cos_waccuracy, nn.euc_to_cos_accuracy,
          ms, cs, indiv⟩) :: store, 2 + tr.length⟩ := by
  simp only [runEvaluation, hmiss, hdrop, hind, hloop, hnn]

/-- A cache hit (a stored file under the key that parses) returns normally
with zero oracle calls and an unchanged store. -/
theorem runEvaluation_hit (cfg : Config) (store : Store) (rows : List (List Val))
    (st : LoadedState)
    (hhit : lookupStore store (savePath cfg) = some rows)
    (hread : readFromCsv rows = Except.ok st) :
    runEvaluation cfg store = ⟨Except.ok (), store, 0⟩ := by
  simp only [runEvaluation, hhit, hread]

/-- C9: a run whose outcome is a raised error leaves the Result Store
unchanged — `save_results` runs only after every pipeline stage has
completed — so the next invocation behaves exactly like the failed one did
(in particular, on a cache miss it re-runs the full pipeline). -/
theorem claim9_failure_writes_no_cache_entry (cfg : Config) (store : Store) (e : PyErr)
    (herr : (runEvaluation cfg store).outcome = Except.error e) :
    (runEvaluation cfg store).store = store ∧
    runEvaluation cfg ((runEvaluation cfg store).store) = runEvaluation cfg store := by
  have hstore : (runEvaluation cfg store).store = store := by
    unfold runEvaluation at herr ⊢
    split at herr
    · split at herr
      · simp at herr
      · rfl
    · split at herr
      · rfl
      · split at herr
        · rfl
        · split at herr
          · rfl
          · split at herr
            · rfl
            · simp at herr
  exact ⟨hstore, by rw [hstore]⟩

/-- Witness for C9: a configuration whose drop-out stage raises leaves the
empty store empty, and rerunning gives the same failing result. -/
theorem claim9_failure_writes_no_cache_entry_witness :
    (runEvaluation demoFailCfg []).outcome = Except.error PyErr.valueError ∧
    (runEvaluation demoFailCfg []).store = [] ∧
    runEvaluation demoFailCfg ((runEvaluation demoFailCfg []).store) =
      runEvaluation demoFailCfg [] := by
  have herr : (runEvaluation demoFailCfg []).outcome = Except.error PyErr.valueError := rfl
  have h := claim9_failure_writes_no_cache_entry demoFailCfg [] PyErr.valueError herr
  exact ⟨herr, h.1, h.2⟩

/-- A store whose head entry is a freshly saved report under the
configuration's cache key produces a pure cache read: normal return, zero
oracle calls, unchanged store. -/
theorem runEvaluation_after_save (cfg : Config) (store : Store) (r : Report) :
    runEvaluation cfg ((savePath cfg, saveRows r) :: store) =
      ⟨Except.ok (), (savePath cfg, saveRows r) :: store, 0⟩ :=
  runEvaluation_hit cfg ((savePath cfg, saveRows r) :: store) (saveRows r) (loadedOf r)
    (by simp [lookupStore]) (read_save r)

/-- C2: starting from a store without the configuration's cache key, a
successful invocation performs exactly `2 + 2·|pool|` Ablation Loss Oracle
calls (the drop-out bulk call, the individual-loss bulk call, and the
masked plus compressed `validate_prompt` call per model) and saves; the
second invocation with the unchanged configuration returns normally as a
pure cache read, performing zero oracle calls and leaving the store as the
first invocation wrote it. -/
theorem claim2_second_invocation_pure_cache_read (cfg : Config) (store : Store)
    (hmiss : lookupStore store (savePath cfg) = none)
    (hok : (runEvaluation cfg store).outcome = Except.ok ()) :
    (runEvaluation cfg store).calls = 2 + 2 * cfg.model_numbers.length ∧
    (runEvaluation cfg (runEvaluation cfg store).store).outcome = Except.ok () ∧
    (runEvaluation cfg (runEvaluation cfg store).store).calls = 0 ∧
    (runEvaluation cfg (runEvaluation cfg store).store).store =
      (runEvaluation cfg store).store := by
  unfold runEvaluation at hok
  split at hok
  · rename_i rows heq
    rw [hmiss] at heq
    simp at heq
  · split at hok
    · simp at hok
    · rename_i mpt mlpt hdrop
      split at hok
      · simp at hok
      · rename_i indiv hind
        split at hok
        · simp at hok
        · rename_i masked compressed tr hloop
          split at hok
          · simp at hok
          · rename_i nn hnn
            have hrun := runEvaluation_miss_ok cfg store mpt mlpt indiv
              masked compressed tr nn hmiss hdrop hind hloop hnn
            have hfst : (lossLoop cfg.validatePromptResult mpt cfg.model_numbers).1 =
                Except.ok (masked, compressed) := congrArg Prod.fst hloop
            have hsnd : (lossLoop cfg.validatePromptResult mpt cfg.model_numbers).2 = tr :=
              congrArg Prod.snd hloop
            have hlen : tr.length = 2 * cfg.model_numbers.length := by
              rw [← hsnd]
              exact lossLoop_ok_calls _ _ _ _ hfst
            simp only [hrun, runEvaluation_after_save]
            exact ⟨by rw [hlen], trivial, trivial, trivial⟩

/-- Witness for C2: the concrete configuration `demoCfg` run from an empty
store — the first invocation succeeds with `2 + 2·2 = 6` oracle calls, the
second is a pure cache read. -/
theorem claim2_second_invocation_pure_cache_read_witness :
    (lookupStore [] (savePath demoCfg) = none ∧
      (runEvaluation demoCfg []).outcome = Except.ok ()) ∧
    (runEvaluation demoCfg []).calls = 2 + 2 * demoCfg.model_numbers.length ∧
    (runEvaluation demoCfg (runEvaluation demoCfg []).store).outcome = Except.ok () ∧
    (runEvaluation demoCfg (runEvaluation demoCfg []).store).calls = 0 ∧
    (runEvaluation demoCfg (runEvaluation demoCfg []).store).store =
      (runEvaluation demoCfg []).store := by
  have hvotes : nnVotes 1 [0, 1] [[0], [1]] = Except.ok [(0, 1), (1, 1)] := by
    norm_num [nnVotes, nnVoteOne, pyMapGet, pyGet, mostCommon, firstOcc, pickMax, pyDiv,
      ok_bind, List.count, List.countP, List.countP.go]
  have hacc : accuracy [0, 1] [(0, 1), (1, 1)] = Except.ok 1 := by
    norm_num [accuracy, pySum, accTerm, pyGet, pyDiv, indicator, List.range, List.range.loop,
      ok_bind]
  have hwacc : waccuracy [0, 1] [(0, 1), (1, 1)] = Except.ok 1 := by
    norm_num [waccuracy, pySum, numTerm, certTerm, pyGet, pyDiv, indicator, List.range,
      List.range.loop, ok_bind]
  have hcross : crossAccuracy [(0, 1), (1, 1)] [(0, 1), (1, 1)] = Except.ok 1 := by
    norm_num [crossAccuracy, pySum, crossTerm, pyGet, pyDiv, indicator, List.range,
      List.range.loop, ok_bind]
  have hnn : nnEvaluation demoCfg [0, 1] =
      Except.ok ⟨[(0, 1), (1, 1)], [(0, 1), (1, 1)], 1, 1, 1, 1, 1⟩ := by
    simp only [nnEvaluation,
      show demoCfg.k = 1 from rfl,
      show demoCfg.embeddingLabels = [0, 1] from rfl,
      show demoCfg.nearestNeighborsEuc = [[0], [1]] from rfl,
      show demoCfg.nearestNeighborsCos = [[0], [1]] from rfl,
      hvotes, hacc, hwacc, hcross, ok_bind, pure_eq_ok]
  have hloop : lossLoop demoCfg.validatePromptResult [0, 1] [0, 1] =
      (Except.ok ([1, 2], [3, 4]),
       [⟨0, [0], true, false⟩, ⟨0, [0], true, true⟩,
        ⟨1, [1], true, false⟩, ⟨1, [1], true, true⟩]) := by
    norm_num [lossLoop, demoCfg, tokensToKeep, enumKeep]
  have hok : (runEvaluation demoCfg []).outcome = Except.ok () := by
    rw [runEvaluation_miss_ok demoCfg [] [0, 1] [7, 9] [5, 6] [1, 2] [3, 4]
      [⟨0, [0], true, false⟩, ⟨0, [0], true, true⟩,
       ⟨1, [1], true, false⟩, ⟨1, [1], true, true⟩]
      ⟨[(0, 1), (1, 1)], [(0, 1), (1, 1)], 1, 1, 1, 1, 1⟩
      rfl rfl rfl hloop hnn]
  have h := claim2_second_invocation_pure_cache_read demoCfg [] rfl hok
  exact ⟨⟨rfl, hok⟩, h.1, h.2.1, h.2.2.1, h.2.2.2⟩
